import Mathlib

/-!
Verification of the olmocr distributed OCR pipeline core against its
natural-language specification.

The Python sources are shallowly embedded: pure fragments become Lean
functions, the retry loops become step functions over explicit state and a
scripted list of attempt outcomes, and fallible code returns `Option` or an
explicit result type.  File/line references in doc comments point into the
repository sources.
-/

set_option maxRecDepth 100000

namespace OlmOCR

/-! ## Data model -/

/-- Modelled from the spec: the page-level model output (`olmocr.prompts.PageResponse`,
imported by `pipeline/processing.py` but whose module is not among the sources).
Per §3 of the spec a Response carries natural_text (nullable), language, a
rotation-validity flag, rotation-correction degrees, and table/diagram flags. -/
structure PageResponse where
  natural_text : Option String
  primary_language : Option String
  is_rotation_valid : Bool
  rotation_correction : Nat
  is_table : Bool
  is_diagram : Bool
deriving DecidableEq

/-- Result of processing one PDF page (`pipeline/document_builder.py`, lines 26-34). -/
structure PageResult where
  s3_path : String
  page_num : Nat
  response : PageResponse
  input_tokens : Nat
  output_tokens : Nat
  is_fallback : Bool
deriving DecidableEq

/-- Metadata of a Dolma document (`DolmaDocumentBuilder._build_metadata`,
`pipeline/document_builder.py`, lines 171-195).  The `olmocr-version` constant is
omitted as no claim mentions it. -/
structure DolmaMetadata where
  source_file : String
  pdf_total_pages : Nat
  total_input_tokens : Nat
  total_output_tokens : Nat
  total_fallback_pages : Nat
deriving DecidableEq

/-- The pure observable content of a Dolma document built by
`DolmaDocumentBuilder.build_document` (`pipeline/document_builder.py`, lines 116-124).
The `id` field (a SHA-1 of `text`) and the `added`/`created` wall-clock dates are
omitted: the hash and the clock are outside the shallow embedding and no claim
refers to them.  A span is `(start, end, page_num)`. -/
structure DolmaDoc where
  text : String
  pdf_page_spans : List (Nat × Nat × Nat)
  metadata : DolmaMetadata
deriving DecidableEq

/-! ## Document builder (`pipeline/document_builder.py`) -/

/-- One page's contribution to the document text (`build_document`, lines 94-98):
the page's natural text followed by a newline separator when the page is not at
the last index, and the empty string when `natural_text` is `None`. -/
def pageContent (n index : Nat) (pr : PageResult) : String :=
  match pr.response.natural_text with
  | some t => t ++ (if index < n - 1 then "\n" else "")
  | none => ""

/-- The text-and-spans assembly loop of `build_document` (lines 90-103).
In the source `current_char_pos` always equals `len(document_text)` (both start
at zero and are updated together), so the model reads the position off
`text.length`; spans are produced in loop order. -/
def buildLoop (n index : Nat) (text : String) :
    List PageResult → String × List (Nat × Nat × Nat)
  | [] => (text, [])
  | pr :: rest =>
    let content := pageContent n index pr
    let text2 := text ++ content
    let r := buildLoop n (index + 1) text2 rest
    (r.1, (text.length, text2.length, pr.page_num) :: r.2)

/-- Metadata assembly (`_build_metadata`, lines 182-193). -/
def build_metadata (pdf_orig_path : String) (page_results : List PageResult) :
    DolmaMetadata :=
  { source_file := pdf_orig_path
    pdf_total_pages := page_results.length
    total_input_tokens := (page_results.map (fun pr => pr.input_tokens)).sum
    total_output_tokens := (page_results.map (fun pr => pr.output_tokens)).sum
    total_fallback_pages := (page_results.filter (fun pr => pr.is_fallback)).length }

/-- `DolmaDocumentBuilder.build_document` (lines 85-124): `None` on an empty
page-result list, `None` when the assembled text is empty, otherwise the
document record.  Structured-output post-processing (lines 127-163) is disabled
by default (`structured_output_config = None`) and not modelled. -/
def build_document (pdf_orig_path : String) (page_results : List PageResult) :
    Option DolmaDoc :=
  if page_results.isEmpty then none
  else
    let r := buildLoop page_results.length 0 "" page_results
    if r.1 = "" then none
    else some { text := r.1
                pdf_page_spans := r.2
                metadata := build_metadata pdf_orig_path page_results }

/-- Spec-side text assembly, written from the claim's words: the concatenation
`T1 ++ "\n" ++ T2 ++ ... ++ Tn` with exactly one newline between consecutive
pages and no trailing separator. -/
def specJoinTexts : List String → String
  | [] => ""
  | [t] => t
  | t :: t' :: rest => t ++ "\n" ++ specJoinTexts (t' :: rest)

/-- Spec-side span list for the amended claim C2: spans start at the offset of
each page's text in the assembled text; a non-last page's span additionally
covers its separator newline, the last page's span ends at the end of its text. -/
def specSpansFrom (pos : Nat) : List (String × Nat) → List (Nat × Nat × Nat)
  | [] => []
  | [(t, p)] => [(pos, pos + t.length, p)]
  | (t, p) :: q :: rest =>
    (pos, pos + t.length + 1, p) :: specSpansFrom (pos + t.length + 1) (q :: rest)

/-- A non-fallback page result with the given natural text and page number,
used to instantiate the builder theorems on concrete inputs. -/
def mkPage (t : Option String) (p : Nat) : PageResult :=
  { s3_path := "s3://bucket/doc.pdf", page_num := p,
    response := { natural_text := t, primary_language := none, is_rotation_valid := true,
                  rotation_correction := 0, is_table := false, is_diagram := false },
    input_tokens := 0, output_tokens := 0, is_fallback := false }

/-! ## Page processor state machine (`pipeline/processing.py`, `PageProcessor.process_page`) -/

/-- The outcome of one iteration of the `process_page` retry loop, i.e. what the
`try` body observes after submitting the query (lines 184-247).  `transient`
stands for a raised `ConnectionError`, `OSError` or `asyncio.TimeoutError`;
`httpStatusError` for a non-200 status (400/500/other, lines 187-192, all raise
`ValueError`); `overContext` for token usage above `model_max_context` (lines
196-199); `jsonDecodeError` for a `json.JSONDecodeError` (lines 237-241);
`unexpectedError` for any other exception (lines 245-247); `modelResponse` for a
200 response whose body parsed into a `PageResponse` (lines 206-224). -/
inductive AttemptOutcome where
  | transient
  | httpStatusError
  | overContext
  | jsonDecodeError
  | unexpectedError
  | modelResponse (resp : PageResponse)
deriving DecidableEq

/-- The per-page local retry state of `process_page` (lines 164-167), together
with two observation logs: the rotation passed to `build_page_query` at each
iteration (`rotations_used`, one entry per backend call) and the backoff sleeps
performed (`sleep_delays`). -/
structure PageState where
  attempt : Nat
  exponential_backoffs : Nat
  local_anchor_text_len : Nat
  local_image_rotation : Nat
  rotations_used : List Nat
  sleep_delays : List Nat
deriving DecidableEq

/-- How a scripted `process_page` run ends: `success` models the return of a
non-fallback `PageResult` (lines 216-224), `fallback` the terminal fallback
result after the attempt budget is exhausted (lines 249-267), and `pending`
means the scripted outcomes ran out while the loop was still going (the loop
guard `attempt < MAX_RETRIES` still held). -/
inductive RunResult where
  | success (st : PageState) (resp : PageResponse)
  | fallback (st : PageState)
  | pending (st : PageState)
deriving DecidableEq

/-- The state reached when a run ends. -/
def RunResult.state : RunResult → PageState
  | .success st _ => st
  | .fallback st => st
  | .pending st => st

/-- The rotation with which the last executed attempt rendered its image. -/
def RunResult.finalRotation (r : RunResult) : Option Nat :=
  r.state.rotations_used.getLast?

/-- The number of backend calls the run made (one per loop iteration, since
every iteration builds a query and submits it via `post_completion`). -/
def RunResult.backendCalls (r : RunResult) : Nat :=
  r.state.rotations_used.length

/-- The retry loop of `PageProcessor.process_page` (lines 170-247) over a script
of attempt outcomes.  Each iteration first records the rotation used for the
query it builds (line 177), then branches on the outcome exactly as the
`try`/`except` ladder does: a transient error sleeps `10 * 2**exponential_backoffs`
and leaves `attempt` unchanged (lines 225-232); every other failure increments
`attempt` (lines 237-247), with `overContext` and `jsonDecodeError` also halving
`local_anchor_text_len` down to a floor of 1 (lines 197, 239); an invalid
rotation with `attempt < MAX_RETRIES - 1` overwrites `local_image_rotation` with
the response's `rotation_correction` and raises `ValueError`, hence increments
`attempt` (lines 209-214, 242-244); otherwise the response is returned. -/
def process_page_run (maxRetries : Nat) : PageState → List AttemptOutcome → RunResult
  | st, [] => if st.attempt < maxRetries then .pending st else .fallback st
  | st, o :: rest =>
    if st.attempt < maxRetries then
      let st0 := { st with rotations_used := st.rotations_used ++ [st.local_image_rotation] }
      match o with
      | .transient =>
        process_page_run maxRetries
          { st0 with exponential_backoffs := st0.exponential_backoffs + 1,
                     sleep_delays := st0.sleep_delays ++ [10 * 2 ^ st0.exponential_backoffs] } rest
      | .httpStatusError =>
        process_page_run maxRetries { st0 with attempt := st0.attempt + 1 } rest
      | .overContext =>
        process_page_run maxRetries
          { st0 with local_anchor_text_len := max 1 (st0.local_anchor_text_len / 2),
                     attempt := st0.attempt + 1 } rest
      | .jsonDecodeError =>
        process_page_run maxRetries
          { st0 with local_anchor_text_len := max 1 (st0.local_anchor_text_len / 2),
                     attempt := st0.attempt + 1 } rest
      | .unexpectedError =>
        process_page_run maxRetries { st0 with attempt := st0.attempt + 1 } rest
      | .modelResponse resp =>
        if resp.is_rotation_valid = false ∧ st0.attempt < maxRetries - 1 then
          process_page_run maxRetries
            { st0 with local_image_rotation := resp.rotation_correction,
                       attempt := st0.attempt + 1 } rest
        else .success st0 resp
    else .fallback st

/-- The initial local retry state of `process_page` (lines 164-167). -/
def initPageState (target_anchor_text_len : Nat) : PageState :=
  { attempt := 0, exponential_backoffs := 0,
    local_anchor_text_len := target_anchor_text_len, local_image_rotation := 0,
    rotations_used := [], sleep_delays := [] }

/-- A model response reporting an invalid rotation with suggested correction 90. -/
def invalidRotation90 : PageResponse :=
  { natural_text := some "page text", primary_language := none, is_rotation_valid := false,
    rotation_correction := 90, is_table := false, is_diagram := false }

/-- A model response reporting a valid rotation. -/
def validRotation : PageResponse :=
  { natural_text := some "page text", primary_language := none, is_rotation_valid := true,
    rotation_correction := 0, is_table := false, is_diagram := false }

/-- The mocked-backend script of claim C1: invalid rotation with correction 90
on attempts 1..k-1, then a valid rotation on attempt k. -/
def rotationScenario (k : Nat) : List AttemptOutcome :=
  List.replicate (k - 1) (.modelResponse invalidRotation90) ++ [.modelResponse validRotation]

/-! ## Document processor fallback-ratio gate (`pipeline/processing.py`, `DocumentProcessor.process_pdf`) -/

/-- The tail of `DocumentProcessor.process_pdf` after all pages are processed
(lines 346-357): count fallback pages, discard the document when
`num_fallback_pages / num_pages > args.max_page_error_rate`, and otherwise hand
the results to the document builder.  `num_pages` equals `page_results.length`
because `_process_all_pages` creates exactly one page task per page (lines
380-389).  Python compares IEEE doubles here; the model uses exact rationals,
which decide the comparison identically at the claim's boundary values
(`1.0/250.0` and the literal `0.004` round to the same double, and `2.0/250.0`
rounds strictly above it). -/
def process_pdf_result (max_page_error_rate : ℚ) (pdf_orig_path : String)
    (page_results : List PageResult) : Option DolmaDoc :=
  let num_pages := page_results.length
  let num_fallback_pages := (page_results.filter (fun pr => pr.is_fallback)).length
  if (num_fallback_pages : ℚ) / (num_pages : ℚ) > max_page_error_rate then none
  else build_document pdf_orig_path page_results

/-- A fallback page result with non-empty text and the given page number. -/
def mkFallbackPage (p : Nat) : PageResult :=
  { mkPage (some "fallback text") p with is_fallback := true }

/-- A 250-page document's results with exactly one fallback page. -/
def pages250one : List PageResult :=
  List.replicate 249 (mkPage (some "x") 1) ++ [mkFallbackPage 250]

/-- A 250-page document's results with exactly two fallback pages. -/
def pages250two : List PageResult :=
  List.replicate 248 (mkPage (some "x") 1) ++ [mkFallbackPage 249, mkFallbackPage 250]

/-! ## Inference client (`pipeline/http_client.py`) -/

/-- Number of times `SimpleRecoveryManager.execute_with_retry` invokes its
operation (`error_handling/__init__.py`, lines 253-265), given which attempt
indices would succeed.  The loop runs `attempt` over `range(max_attempts)`;
success returns, and a failure on the last attempt re-raises while any earlier
failure sleeps and continues.  `fuel` is the number of loop iterations left
(`max_attempts - attempt`); the second equation's `fuel = 0` test is the
source's `attempt == self.max_attempts - 1` test. -/
def executeWithRetryCallsAux (succeeds : Nat → Bool) : Nat → Nat → Nat
  | _, 0 => 0
  | attempt, fuel + 1 =>
    if succeeds attempt then 1
    else if fuel = 0 then 1
    else 1 + executeWithRetryCallsAux succeeds (attempt + 1) fuel

/-- Total operation invocations of `execute_with_retry` started at attempt 0. -/
def execute_with_retry_calls (max_attempts : Nat) (succeeds : Nat → Bool) : Nat :=
  executeWithRetryCallsAux succeeds 0 max_attempts

/-- Number of HTTP POSTs one `post_completion` call issues
(`pipeline/http_client.py`, lines 48-78): it delegates to
`recovery_manager.execute_with_retry(self._post, ...)`, whose manager is built
with `max_attempts=3` (line 45), and each `_post` invocation writes the request
to a fresh connection exactly once (lines 114-129). -/
def post_completion_posts (succeeds : Nat → Bool) : Nat :=
  execute_with_retry_calls 3 succeeds

/-- Error classification of `_post` (matching the spec's failure taxonomy):
network, timeout, or validation. -/
inductive PostErrorKind where
  | network
  | timeout
  | validation
deriving DecidableEq

/-- What one `_post` attempt produces: a status code and body length, or a
raised error of one of the three kinds. -/
inductive PostOutcome where
  | ok (status_code : Int) (body_length : Int)
  | err (kind : PostErrorKind)
deriving DecidableEq

/-- What the wire delivered to one `_post` attempt: an `asyncio.TimeoutError`
(connect or read timeout), a `ConnectionRefusedError`/`OSError`, or a readable
response consisting of a raw status line (empty when the peer closed without
responding, making `reader.readline()` return `b""`) and a list of raw header
key/value pairs (each header line already split at its first `:`, line 162). -/
inductive WireResult where
  | timedOut
  | connectionFailed
  | response (status_line : String) (headers : List (String × String))
deriving DecidableEq

/-- Python whitespace for `str.strip()` (the common ASCII set). -/
def isSpaceChar (c : Char) : Bool :=
  c = ' ' || c = '\t' || c = '\n' || c = '\r' || c = '\x0b' || c = '\x0c'

/-- Drop leading whitespace characters. -/
def dropLeadingSpaces : List Char → List Char
  | [] => []
  | c :: cs => if isSpaceChar c then dropLeadingSpaces cs else c :: cs

/-- Model of Python `str.strip()`: remove leading and trailing whitespace. -/
def pyStrip (s : String) : String :=
  ⟨dropLeadingSpaces (dropLeadingSpaces s.data.reverse).reverse⟩

/-- Model of Python `str.lower()` (per-character lowering). -/
def pyLower (s : String) : String :=
  ⟨s.data.map Char.toLower⟩

/-- Split a character list at every space, keeping empty segments — Python
`s.split(" ")` without a maxsplit. -/
def splitSpacesAux : List Char → List Char → List (List Char)
  | [], acc => [acc.reverse]
  | c :: cs, acc =>
    if c = ' ' then acc.reverse :: splitSpacesAux cs []
    else splitSpacesAux cs (c :: acc)

/-- Model of Python `s.split(" ")`. -/
def pySplitSpace (s : String) : List String :=
  (splitSpacesAux s.data []).map (fun cs => ⟨cs⟩)

/-- Model of Python `int(s)` on a string: strip surrounding whitespace, allow
one optional sign, then require one or more decimal digits.  (Python also
accepts underscore digit grouping and non-ASCII digits; no claim depends on
those.)  Returns `none` when `int()` would raise `ValueError`. -/
def decDigits? (cs : List Char) : Option Nat :=
  if cs = [] then none
  else if cs.all Char.isDigit then
    some (cs.foldl (fun n c => n * 10 + (c.toNat - 48)) 0)
  else none

/-- Signed integer parsing, see `decDigits?`. -/
def pyInt? (s : String) : Option Int :=
  match (pyStrip s).data with
  | '+' :: cs => (decDigits? cs).map Int.ofNat
  | '-' :: cs => (decDigits? cs).map (fun n => -(n : Int))
  | cs => (decDigits? cs).map Int.ofNat

/-- Header dictionary lookup: `_post` stores each header under
`key.strip().lower()` with value `value.strip()` (line 163), a later duplicate
key overwriting an earlier one, and then tests `"content-length" in headers`. -/
def headerLookup (headers : List (String × String)) (key : String) : Option String :=
  headers.foldl
    (fun acc kv => if pyLower (pyStrip kv.1) = key then some (pyStrip kv.2) else acc) none

/-- The tokens of the status line: `status_line.decode().strip().split(" ", 2)`
(line 140).  The model splits on every space; the source's `maxsplit=2` only
merges tokens from the third onward, so the two observables used — whether
fewer than two tokens exist, and the second token — are identical. -/
def statusParts (status_line : String) : List String :=
  pySplitSpace (pyStrip status_line)

/-- The response handling and error classification of `SGLangHTTPClient._post`
(`pipeline/http_client.py`, lines 108-219): a timeout raises `TimeoutError`
(lines 193-198); a connection failure raises `NetworkError` (lines 199-204); an
empty status line raises `NetworkError` (lines 133-138); a status line with
fewer than two tokens raises `ValidationError` (lines 141-145); a non-integer
status code raises `ValidationError` (lines 147-154); a missing
`content-length` header raises `NetworkError` (lines 179-183); a present but
non-integer `content-length` raises `ValidationError` (lines 166-178); and
otherwise the status code and body are returned. -/
def classify_post (w : WireResult) : PostOutcome :=
  match w with
  | .timedOut => .err .timeout
  | .connectionFailed => .err .network
  | .response status_line headers =>
    if status_line = "" then .err .network
    else
      let parts := statusParts status_line
      if parts.length < 2 then .err .validation
      else
        match pyInt? ((parts.get? 1).getD "") with
        | none => .err .validation
        | some code =>
          match headerLookup headers "content-length" with
          | none => .err .network
          | some v =>
            match pyInt? v with
            | none => .err .validation
            | some len => .ok code len

/-! ## Cloud store backoff download (`cloud_utils.py`) -/

/-- What one `get_s3_bytes` call inside the backoff loop does: return data,
raise a `botocore` `ClientError` with the given error code, or raise any other
exception. -/
inductive S3Attempt (α : Type) where
  | ok (data : α)
  | clientError (code : String)
  | otherError
deriving DecidableEq

/-- How `get_s3_bytes_with_backoff` ends, with the backoff sleeps it performed
(in seconds, in order). -/
inductive S3BackoffResult (α : Type) where
  | returned (data : α) (slept : List Nat)
  | raisedClientError (code : String) (slept : List Nat)
  | raisedTerminal (slept : List Nat)
deriving DecidableEq

/-- The loop body of `get_s3_bytes_with_backoff` (`cloud_utils.py`, lines
154-177): `while attempt < max_retries`, a `ClientError` with code
`AccessDenied` or `NoSuchKey` is re-raised immediately; any other failure
sleeps `backoff_factor ** attempt` and increments `attempt`; falling out of the
loop raises the terminal `Exception`.  `fuel = max_retries - attempt`. -/
def s3BackoffAux {α : Type} (attempts : Nat → S3Attempt α) (backoff_factor : Nat) :
    Nat → Nat → List Nat → S3BackoffResult α
  | _, 0, slept => .raisedTerminal slept
  | attempt, fuel + 1, slept =>
    match attempts attempt with
    | .ok d => .returned d slept
    | .clientError code =>
      if code = "AccessDenied" ∨ code = "NoSuchKey" then .raisedClientError code slept
      else s3BackoffAux attempts backoff_factor (attempt + 1) fuel
        (slept ++ [backoff_factor ^ attempt])
    | .otherError =>
      s3BackoffAux attempts backoff_factor (attempt + 1) fuel
        (slept ++ [backoff_factor ^ attempt])

/-- `get_s3_bytes_with_backoff` over a script of per-attempt results
(defaults in the source: `max_retries = 8`, `backoff_factor = 2`). -/
def get_s3_bytes_with_backoff_run {α : Type} (attempts : Nat → S3Attempt α)
    (max_retries backoff_factor : Nat) : S3BackoffResult α :=
  s3BackoffAux attempts backoff_factor 0 max_retries []

/-- An S3 attempt outcome that the loop retries: any failure other than a
`ClientError` coded `AccessDenied` or `NoSuchKey`. -/
def S3Attempt.retryable {α : Type} : S3Attempt α → Prop
  | .ok _ => False
  | .clientError code => ¬(code = "AccessDenied" ∨ code = "NoSuchKey")
  | .otherError => True

/-- What one `get_gcs_bytes` call inside the backoff loop does:
`notFound` is the `FileNotFoundError` that `get_gcs_bytes` raises on GCS
`NotFound` (lines 490-504), `permissionDenied` a `PermissionError`, `forbidden`
the `google.api_core` `Forbidden` exception, `otherError` anything else. -/
inductive GcsAttempt (α : Type) where
  | ok (data : α)
  | notFound
  | permissionDenied
  | forbidden
  | otherError
deriving DecidableEq

/-- How `get_gcs_bytes_with_backoff` ends, with the backoff sleeps performed. -/
inductive GcsBackoffResult (α : Type) where
  | returned (data : α) (slept : List Nat)
  | raisedNotFound (slept : List Nat)
  | raisedPermission (slept : List Nat)
  | raisedTerminal (slept : List Nat)
deriving DecidableEq

/-- The loop body of `get_gcs_bytes_with_backoff` (`cloud_utils.py`, lines
507-533): `FileNotFoundError` and `PermissionError` are re-raised immediately,
a `Forbidden` is converted to a `PermissionError` and raised immediately, any
other failure sleeps `backoff_factor ** attempt` and increments `attempt`, and
exhausting the budget raises the terminal `Exception`. -/
def gcsBackoffAux {α : Type} (attempts : Nat → GcsAttempt α) (backoff_factor : Nat) :
    Nat → Nat → List Nat → GcsBackoffResult α
  | _, 0, slept => .raisedTerminal slept
  | attempt, fuel + 1, slept =>
    match attempts attempt with
    | .ok d => .returned d slept
    | .notFound => .raisedNotFound slept
    | .permissionDenied => .raisedPermission slept
    | .forbidden => .raisedPermission slept
    | .otherError =>
      gcsBackoffAux attempts backoff_factor (attempt + 1) fuel
        (slept ++ [backoff_factor ^ attempt])

/-- `get_gcs_bytes_with_backoff` over a script of per-attempt results. -/
def get_gcs_bytes_with_backoff_run {α : Type} (attempts : Nat → GcsAttempt α)
    (max_retries backoff_factor : Nat) : GcsBackoffResult α :=
  gcsBackoffAux attempts backoff_factor 0 max_retries []

/-- A GCS attempt outcome that the loop retries. -/
def GcsAttempt.retryable {α : Type} : GcsAttempt α → Prop
  | .otherError => True
  | _ => False

/-! ## Worker manager (`pipeline/workers.py`) -/

/-- What one member document's `process_pdf` task delivered to
`_process_pdfs_in_work_item`: a document, `None`, or a raised exception.
When any member's task raises, the `asyncio.TaskGroup` raises an
`ExceptionGroup` at the `async with` exit, so `failed` affects the whole
item's collection, not just its own slot (see `collect_dolma_docs`). -/
inductive MemberOutcome where
  | produced (doc : DolmaDoc)
  | noDocument
  | failed
deriving DecidableEq

/-- The collection loop of `_process_pdfs_in_work_item` (`pipeline/workers.py`,
lines 137-144), which only runs when the `TaskGroup` exited cleanly — every
task then has a result, and each non-`None` result is appended in task order. -/
def keptDocs (results : List MemberOutcome) : List DolmaDoc :=
  results.foldr
    (fun r acc => match r with
      | .produced d => d :: acc
      | _ => acc) []

/-- The document list `_process_pdfs_in_work_item` returns (`pipeline/workers.py`,
lines 123-149).  If any member task raised, the `asyncio.TaskGroup` raises an
`ExceptionGroup` when the `async with` block exits (lines 126-132), the
collection loop at lines 137-144 never runs, and the outer
`except Exception` (lines 146-148) logs and returns `dolma_docs`, which is
still the empty list it was initialised to at line 123.  Only when every task
completed without raising does the collection loop gather the non-`None`
results. -/
def collect_dolma_docs (results : List MemberOutcome) : List DolmaDoc :=
  if results.any (fun r => match r with | .failed => true | _ => false) then []
  else keptDocs results

/-- `_write_dolma_documents` (lines 176-197) writes one JSON line per document
to the single results file `output_{hash}.jsonl`. -/
def dolma_jsonl_line_count (docs : List DolmaDoc) : Nat := docs.length

/-- Observable outcome of processing one claimed work item. -/
structure WorkItemRun where
  lines_written : Nat
  marked_done : Bool
deriving DecidableEq

/-- The worker's handling of one claimed work item (`worker`, lines 80-86, and
`_process_work_item`, lines 88-109): collect the member documents per
`collect_dolma_docs`, write them as JSONL, and reach
`work_queue.mark_done(work_item)` (line 82) — also on the failure path, since
`_process_pdfs_in_work_item` catches the `ExceptionGroup` (line 146) and
returns the empty list rather than re-raising. -/
def run_work_item (memberResults : List MemberOutcome) : WorkItemRun :=
  let docs := collect_dolma_docs memberResults
  { lines_written := dolma_jsonl_line_count docs, marked_done := true }

/-- A concrete document for instantiating the worker theorems. -/
def sampleDoc : DolmaDoc :=
  { text := "hello",
    pdf_page_spans := [(0, 5, 1)],
    metadata := { source_file := "s3://bucket/a.pdf", pdf_total_pages := 1,
                  total_input_tokens := 10, total_output_tokens := 5,
                  total_fallback_pages := 0 } }

/-- The S3 download script used as the witness for claim C8: the first attempt
fails with a retryable error, the second raises `NoSuchKey`. -/
def s3WitnessScript : Nat → S3Attempt Nat :=
  fun i => if i = 0 then .otherError else .clientError "NoSuchKey"

/-- The GCS download script used in the witness for claim C8: the first two
attempts fail with retryable errors, the third raises `NotFound`. -/
def gcsWitnessScript : Nat → GcsAttempt Nat :=
  fun i => if i < 2 then .otherError else .notFound

/-! ## Helper lemmas -/

theorem string_length_pos (s : String) (h : s ≠ "") : 0 < s.length := by
  cases s with
  | mk data =>
    cases data with
    | nil => exact absurd rfl h
    | cons c cs => simp [String.length]

theorem specJoinTexts_ne_empty : ∀ (texts : List String), texts ≠ [] →
    (∀ t ∈ texts, t ≠ "") → specJoinTexts texts ≠ ""
  | [], h, _ => absurd rfl h
  | [t], _, hall => by simpa [specJoinTexts] using hall t (by simp)
  | t :: t' :: rest, _, _ => by
    have hlen : 0 < (specJoinTexts (t :: t' :: rest)).length := by
      rw [specJoinTexts, String.length_append, String.length_append]
      have h1 : ("\n" : String).length = 1 := rfl
      omega
    intro he
    rw [he] at hlen
    simp at hlen

theorem buildLoop_nil (n i : Nat) (acc : String) :
    buildLoop n i acc [] = (acc, []) := rfl

theorem buildLoop_cons (n i : Nat) (acc : String) (pr : PageResult)
    (rest : List PageResult) :
    buildLoop n i acc (pr :: rest) =
      ((buildLoop n (i + 1) (acc ++ pageContent n i pr) rest).1,
       (acc.length, (acc ++ pageContent n i pr).length, pr.page_num) ::
         (buildLoop n (i + 1) (acc ++ pageContent n i pr) rest).2) := rfl

theorem buildLoop_text_all_some (n : Nat) :
    ∀ (rest : List PageResult) (texts : List String) (i : Nat) (acc : String),
      rest.map (fun pr => pr.response.natural_text) = texts.map some →
      i + rest.length = n →
      (buildLoop n i acc rest).1 = acc ++ specJoinTexts texts := by
  intro rest
  induction rest with
  | nil =>
    intro texts i acc hmap _
    have : texts = [] := by
      cases texts with
      | nil => rfl
      | cons t ts => simp at hmap
    subst this
    simp [buildLoop, specJoinTexts, String.append_empty]
  | cons pr rest ih =>
    intro texts i acc hmap hn
    cases texts with
    | nil => simp at hmap
    | cons t ts =>
      simp only [List.map_cons, List.cons.injEq] at hmap
      obtain ⟨hpr, hrest⟩ := hmap
      cases rest with
      | nil =>
        have hts : ts = [] := by
          cases ts with
          | nil => rfl
          | cons _ _ => simp at hrest
        subst hts
        have hcond : ¬(i < n - 1) := by
          simp only [List.length_cons, List.length_nil] at hn
          omega
        rw [buildLoop_cons]
        simp [buildLoop_nil, pageContent, hpr, hcond, specJoinTexts, String.append_empty]
      | cons pr2 rest2 =>
        have hts : ts ≠ [] := by
          cases ts with
          | nil => simp at hrest
          | cons _ _ => simp
        have hcond : i < n - 1 := by
          simp only [List.length_cons] at hn
          omega
        obtain ⟨t2, ts2, rfl⟩ : ∃ t2 ts2, ts = t2 :: ts2 := by
          cases ts with
          | nil => exact absurd rfl hts
          | cons a b => exact ⟨a, b, rfl⟩
        have hn2 : (i + 1) + (pr2 :: rest2).length = n := by
          simp only [List.length_cons] at hn ⊢
          omega
        have := ih (t2 :: ts2) (i + 1) (acc ++ (t ++ "\n")) hrest hn2
        rw [buildLoop_cons]
        simp only [pageContent, hpr, if_pos hcond]
        rw [this, specJoinTexts, String.append_assoc, String.append_assoc]

theorem buildLoop_text_all_none (n : Nat) :
    ∀ (rest : List PageResult) (i : Nat) (acc : String),
      (∀ pr ∈ rest, pr.response.natural_text = none) →
      (buildLoop n i acc rest).1 = acc := by
  intro rest
  induction rest with
  | nil => intro i acc _; rfl
  | cons pr rest ih =>
    intro i acc hall
    have hpr : pr.response.natural_text = none := hall pr (by simp)
    have hrest : ∀ q ∈ rest, q.response.natural_text = none := fun q hq => hall q (by simp [hq])
    rw [buildLoop_cons]
    simp only [pageContent, hpr]
    rw [ih (i + 1) (acc ++ "") hrest, String.append_empty]

theorem buildLoop_spans (n : Nat) :
    ∀ (rest : List PageResult) (pairs : List (String × Nat)) (i : Nat) (acc : String),
      rest.map (fun pr => (pr.response.natural_text, pr.page_num)) =
        pairs.map (fun q => (some q.1, q.2)) →
      i + rest.length = n →
      (buildLoop n i acc rest).2 = specSpansFrom acc.length pairs := by
  intro rest
  induction rest with
  | nil =>
    intro pairs i acc hmap _
    have : pairs = [] := by
      cases pairs with
      | nil => rfl
      | cons q qs => simp at hmap
    subst this
    rfl
  | cons pr rest ih =>
    intro pairs i acc hmap hn
    cases pairs with
    | nil => simp at hmap
    | cons q qs =>
      simp only [List.map_cons, List.cons.injEq, Prod.mk.injEq, Option.some.injEq] at hmap
      obtain ⟨⟨htext, hpage⟩, hrest⟩ := hmap
      cases rest with
      | nil =>
        have hqs : qs = [] := by
          cases qs with
          | nil => rfl
          | cons _ _ => simp at hrest
        subst hqs
        have hcond : ¬(i < n - 1) := by
          simp only [List.length_cons, List.length_nil] at hn
          omega
        obtain ⟨t, p⟩ := q
        simp only at htext hpage
        rw [buildLoop_cons]
        simp [buildLoop_nil, pageContent, htext, hcond, specSpansFrom, hpage,
          String.length_append, String.append_empty]
      | cons pr2 rest2 =>
        obtain ⟨q2, qs2, rfl⟩ : ∃ q2 qs2, qs = q2 :: qs2 := by
          cases qs with
          | nil => simp at hrest
          | cons a b => exact ⟨a, b, rfl⟩
        have hcond : i < n - 1 := by
          simp only [List.length_cons] at hn
          omega
        have hn2 : (i + 1) + (pr2 :: rest2).length = n := by
          simp only [List.length_cons] at hn ⊢
          omega
        obtain ⟨t, p⟩ := q
        simp only at htext hpage
        have hrec := ih (q2 :: qs2) (i + 1) (acc ++ (t ++ "\n")) hrest hn2
        have hlen : (acc ++ (t ++ "\n")).length = acc.length + t.length + 1 := by
          rw [String.length_append, String.length_append]
          rfl
        rw [buildLoop_cons]
        simp only [pageContent, htext, if_pos hcond]
        rw [hrec, hlen, specSpansFrom, hpage]

theorem specSpansFrom_head_fst (pos : Nat) (q : String × Nat) (qs : List (String × Nat)) :
    ((specSpansFrom pos (q :: qs)).head?.map (fun s => s.1)) = some pos := by
  obtain ⟨t, p⟩ := q
  cases qs with
  | nil => rfl
  | cons q2 rest => rfl

theorem specSpansFrom_contiguous (pairs : List (String × Nat)) : ∀ pos : Nat,
    List.Chain' (fun a b : Nat × Nat × Nat => a.2.1 = b.1) (specSpansFrom pos pairs) := by
  induction pairs with
  | nil => intro pos; simp [specSpansFrom]
  | cons q qs ih =>
    intro pos
    cases qs with
    | nil =>
      obtain ⟨t, p⟩ := q
      simp [specSpansFrom]
    | cons q2 rest =>
      obtain ⟨t, p⟩ := q
      rw [specSpansFrom]
      refine List.chain'_cons'.mpr ⟨?_, ih _⟩
      intro b hb
      have hb' : (specSpansFrom (pos + t.length + 1) (q2 :: rest)).head? = some b := hb
      have hhead := specSpansFrom_head_fst (pos + t.length + 1) q2 rest
      rw [hb'] at hhead
      have hb1 : b.1 = pos + t.length + 1 := by simpa using hhead
      simp [hb1]

theorem specSpansFrom_increasing (pairs : List (String × Nat)) : ∀ pos : Nat,
    List.Chain' (fun a b : Nat × Nat × Nat => a.1 < b.1) (specSpansFrom pos pairs) := by
  induction pairs with
  | nil => intro pos; simp [specSpansFrom]
  | cons q qs ih =>
    intro pos
    cases qs with
    | nil =>
      obtain ⟨t, p⟩ := q
      simp [specSpansFrom]
    | cons q2 rest =>
      obtain ⟨t, p⟩ := q
      rw [specSpansFrom]
      refine List.chain'_cons'.mpr ⟨?_, ih _⟩
      intro b hb
      have hb' : (specSpansFrom (pos + t.length + 1) (q2 :: rest)).head? = some b := hb
      have hhead := specSpansFrom_head_fst (pos + t.length + 1) q2 rest
      rw [hb'] at hhead
      have hb1 : b.1 = pos + t.length + 1 := by simpa using hhead
      simp only [hb1]
      omega

theorem build_document_eq_some (path : String) (prs : List PageResult)
    (hne : prs ≠ []) (htext : (buildLoop prs.length 0 "" prs).1 ≠ "") :
    build_document path prs =
      some { text := (buildLoop prs.length 0 "" prs).1
             pdf_page_spans := (buildLoop prs.length 0 "" prs).2
             metadata := build_metadata path prs } := by
  have hne' : prs.isEmpty = false := by
    cases prs with
    | nil => exact absurd rfl hne
    | cons a l => rfl
  simp only [build_document, hne', Bool.false_eq_true, if_false]
  rw [if_neg htext]

/-! ## Claim theorems: document builder (C2, C3, C4) -/

/-- Claim C3, confirmed: for every non-empty list of page results whose texts
T1..Tn are all non-empty, `build_document` produces a document whose text is
`T1 ++ "\n" ++ T2 ++ ... ++ Tn` — exactly one newline between consecutive pages
and no trailing separator (`specJoinTexts` is that spec-side formula). -/
theorem claim_C3_text_assembly (path : String) (prs : List PageResult)
    (texts : List String)
    (hmap : prs.map (fun pr => pr.response.natural_text) = texts.map some)
    (hne : prs ≠ [])
    (hnonempty : ∀ t ∈ texts, t ≠ "") :
    ∃ d, build_document path prs = some d ∧ d.text = specJoinTexts texts := by
  have htne : texts ≠ [] := by
    intro h
    subst h
    simp only [List.map_nil, List.map_eq_nil] at hmap
    exact hne hmap
  have htext : (buildLoop prs.length 0 "" prs).1 = specJoinTexts texts := by
    have h := buildLoop_text_all_some prs.length prs texts 0 "" hmap (by omega)
    rwa [String.empty_append] at h
  have hjoin_ne : specJoinTexts texts ≠ "" := specJoinTexts_ne_empty texts htne hnonempty
  exact ⟨_, build_document_eq_some path prs hne (htext ▸ hjoin_ne), htext⟩

/-- Witness for claim C3 at a concrete input: two pages "Hello", "World". -/
theorem claim_C3_witness :
    ∃ d, build_document "doc" [mkPage (some "Hello") 1, mkPage (some "World") 2] = some d
      ∧ d.text = specJoinTexts ["Hello", "World"] :=
  claim_C3_text_assembly "doc" [mkPage (some "Hello") 1, mkPage (some "World") 2]
    ["Hello", "World"] (by decide) (by decide) (by decide)

/-- Claim C2 as stated is false: with two pages of texts "a" and "b", the
source records the first page's span as `[0, 2)` — the separator newline after
"a" is inside page 1's span — whereas the claim's `[offset_1, offset_1 +
len(T1))` is `[0, 1)`.  The second conjunct pins the disagreement: the recorded
end 2 differs from the claimed end `0 + len "a" = 1`. -/
theorem claim_C2_counterexample :
    (build_document "doc" [mkPage (some "a") 1, mkPage (some "b") 2]).map
        DolmaDoc.pdf_page_spans = some [(0, 2, 1), (2, 3, 2)]
    ∧ (2 : Nat) ≠ 0 + ("a" : String).length := by
  exact ⟨by decide, by decide⟩

/-- Claim C2 amended: for page results with non-empty texts T1..Tn in the given
order, `build_document` records for the i-th page the half-open span
`[offset_i, offset_i + len(Ti) + 1)` when i < n (the separator newline is part
of page i's span) and `[offset_n, offset_n + len(Tn))` for the last page,
against its page number, where `offset_i` is the start of Ti in the assembled
text (`specSpansFrom 0` is exactly that span list); consecutive spans are
contiguous (each span's end is the next span's start) and the span starts are
strictly increasing. -/
theorem claim_C2_amended_spans (path : String) (prs : List PageResult)
    (pairs : List (String × Nat))
    (hmap : prs.map (fun pr => (pr.response.natural_text, pr.page_num)) =
      pairs.map (fun q => (some q.1, q.2)))
    (hne : prs ≠ [])
    (hnonempty : ∀ q ∈ pairs, q.1 ≠ "") :
    ∃ d, build_document path prs = some d
      ∧ d.pdf_page_spans = specSpansFrom 0 pairs
      ∧ List.Chain' (fun a b : Nat × Nat × Nat => a.2.1 = b.1) d.pdf_page_spans
      ∧ List.Chain' (fun a b : Nat × Nat × Nat => a.1 < b.1) d.pdf_page_spans := by
  have hmap1 : prs.map (fun pr => pr.response.natural_text) =
      (pairs.map Prod.fst).map some := by
    have h := congrArg (List.map Prod.fst) hmap
    simpa [List.map_map, Function.comp] using h
  have htne : pairs.map Prod.fst ≠ [] := by
    intro h
    rw [List.map_eq_nil] at h
    subst h
    simp only [List.map_nil, List.map_eq_nil] at hmap
    exact hne hmap
  have hnonempty' : ∀ t ∈ pairs.map Prod.fst, t ≠ "" := by
    intro t ht
    rw [List.mem_map] at ht
    obtain ⟨q, hq, rfl⟩ := ht
    exact hnonempty q hq
  have htext : (buildLoop prs.length 0 "" prs).1 = specJoinTexts (pairs.map Prod.fst) := by
    have h := buildLoop_text_all_some prs.length prs (pairs.map Prod.fst) 0 "" hmap1 (by omega)
    rwa [String.empty_append] at h
  have hjoin_ne := specJoinTexts_ne_empty (pairs.map Prod.fst) htne hnonempty'
  have hspans : (buildLoop prs.length 0 "" prs).2 = specSpansFrom 0 pairs := by
    have h := buildLoop_spans prs.length prs pairs 0 "" hmap (by omega)
    simpa using h
  refine ⟨_, build_document_eq_some path prs hne (htext ▸ hjoin_ne), hspans, ?_, ?_⟩
  · rw [hspans]
    exact specSpansFrom_contiguous pairs 0
  · rw [hspans]
    exact specSpansFrom_increasing pairs 0

/-- Witness for the amended claim C2 at a concrete input: pages "ab" and "c"
give spans [0,3) and [3,4). -/
theorem claim_C2_amended_witness :
    ∃ d, build_document "doc" [mkPage (some "ab") 1, mkPage (some "c") 2] = some d
      ∧ d.pdf_page_spans = specSpansFrom 0 [("ab", 1), ("c", 2)]
      ∧ List.Chain' (fun a b : Nat × Nat × Nat => a.2.1 = b.1) d.pdf_page_spans
      ∧ List.Chain' (fun a b : Nat × Nat × Nat => a.1 < b.1) d.pdf_page_spans :=
  claim_C2_amended_spans "doc" [mkPage (some "ab") 1, mkPage (some "c") 2]
    [("ab", 1), ("c", 2)] (by decide) (by decide) (by decide)

/-- Claim C4 as stated is false: a two-page list whose texts are both the empty
string (present, not `None`) yields a document with text `"\n"` — the non-last
page with empty text still contributes its separator newline — rather than
none. -/
theorem claim_C4_counterexample :
    build_document "doc" [mkPage (some "") 1, mkPage (some "") 2] ≠ none
    ∧ (build_document "doc" [mkPage (some "") 1, mkPage (some "") 2]).map
        DolmaDoc.text = some "\n" := by
  exact ⟨by decide, by decide⟩

/-- Claim C4 amended: `build_document` returns none on the empty page-result
list, and on any list in which every page's natural_text is absent (`None`).
(When an empty-string text sits on a non-last page, its separator newline makes
the assembled text non-empty and a document is produced, per the
counterexample.) -/
theorem claim_C4_amended_none (path : String) (prs : List PageResult) :
    build_document path [] = none
    ∧ ((∀ pr ∈ prs, pr.response.natural_text = none) → build_document path prs = none) := by
  constructor
  · rfl
  · intro hall
    cases prs with
    | nil => rfl
    | cons pr rest =>
      have htext : (buildLoop (pr :: rest).length 0 "" (pr :: rest)).1 = "" :=
        buildLoop_text_all_none (pr :: rest).length (pr :: rest) 0 "" hall
      simp only [build_document, List.isEmpty_cons, Bool.false_eq_true, if_false]
      rw [if_pos htext]

/-- Witness for the amended claim C4: the empty list and a one-page list with
absent text both yield none. -/
theorem claim_C4_amended_witness :
    build_document "doc" [] = none ∧ build_document "doc" [mkPage none 1] = none :=
  ⟨(claim_C4_amended_none "doc" [mkPage none 1]).1,
   (claim_C4_amended_none "doc" [mkPage none 1]).2 (by decide)⟩

/-! ## Claim theorems: page processor (C1, C10) -/

theorem getLast?_cons_replicate (b : Nat) : ∀ (m : Nat) (a : Nat),
    (a :: List.replicate m b).getLast? = some (if m = 0 then a else b) := by
  intro m
  induction m with
  | zero => intro a; rfl
  | succ m ih =>
    intro a
    rw [List.replicate_succ, List.getLast?_cons_cons, ih b]
    simp

theorem rotation_scenario_run (maxRetries : Nat) :
    ∀ (j : Nat) (st : PageState), st.attempt + j < maxRetries →
      ∃ st', process_page_run maxRetries st
          (List.replicate j (.modelResponse invalidRotation90) ++
            [.modelResponse validRotation]) = .success st' validRotation
        ∧ st'.rotations_used =
            st.rotations_used ++ st.local_image_rotation :: List.replicate j 90 := by
  intro j
  induction j with
  | zero =>
    intro st h
    have h' : st.attempt < maxRetries := by omega
    refine ⟨{ st with rotations_used := st.rotations_used ++ [st.local_image_rotation] },
      ?_, by simp⟩
    show process_page_run maxRetries st
        (List.replicate 0 (.modelResponse invalidRotation90) ++
          [.modelResponse validRotation]) = _
    simp only [List.replicate, List.nil_append]
    simp only [process_page_run, if_pos h']
    rw [if_neg (by simp [validRotation])]
  | succ j ih =>
    intro st h
    have h' : st.attempt < maxRetries := by omega
    have hlt : st.attempt < maxRetries - 1 := by omega
    rw [List.replicate_succ, List.cons_append]
    simp only [process_page_run, if_pos h']
    rw [if_pos (by simp [invalidRotation90]; omega)]
    obtain ⟨st', heq, hrot⟩ := ih
      { st with
        rotations_used := st.rotations_used ++ [st.local_image_rotation],
        local_image_rotation := invalidRotation90.rotation_correction,
        attempt := st.attempt + 1 } (by simp; omega)
    refine ⟨st', heq, ?_⟩
    rw [hrot]
    simp [invalidRotation90, List.replicate_succ]

/-- Claim C1 as stated is false on the source: `process_page` overwrites
`local_image_rotation` with the latest `rotation_correction` (processing.py,
line 213) instead of accumulating a sum modulo 360.  Concretely, in the claim's
own scenario with k = 3 (two invalid-rotation responses suggesting 90, then a
valid one) and an attempt limit of 8, the final attempt renders with rotation
90, whereas the claim demands `90 * (3 - 1) mod 360 = 180`. -/
theorem claim_C1_counterexample :
    (process_page_run 8 (initPageState 4000) (rotationScenario 3)).finalRotation = some 90
    ∧ 90 * (3 - 1) % 360 = 180
    ∧ (90 : Nat) ≠ 180 := by
  exact ⟨by decide, by decide, by decide⟩

/-- Claim C1 amended: when a response reports an invalid rotation and attempts
remain, the rotation applied on the next attempt is exactly the most recent
suggested correction (the accumulator is overwritten, not summed); hence for
every k ≥ 1 below the attempt limit, a run whose responses report invalid
rotation with correction 90 on attempts 1..k-1 and valid rotation on attempt k
makes exactly k backend calls and renders the final attempt's image with
rotation 90 when k ≥ 2 (and 0 when k = 1). -/
theorem claim_C1_amended_rotation (anchorLen k maxRetries : Nat)
    (h1 : 1 ≤ k) (h2 : k < maxRetries) :
    (process_page_run maxRetries (initPageState anchorLen)
        (rotationScenario k)).finalRotation = some (if k = 1 then 0 else 90)
    ∧ (process_page_run maxRetries (initPageState anchorLen)
        (rotationScenario k)).backendCalls = k := by
  obtain ⟨st', heq, hrot⟩ := rotation_scenario_run maxRetries (k - 1)
    (initPageState anchorLen) (by simp [initPageState]; omega)
  rw [rotationScenario, heq]
  constructor
  · simp only [RunResult.finalRotation, RunResult.state, hrot, initPageState,
      List.nil_append]
    rw [getLast?_cons_replicate]
    by_cases hk : k = 1
    · subst hk; simp
    · have hk' : k - 1 ≠ 0 := by omega
      simp [hk, hk']
  · simp only [RunResult.backendCalls, RunResult.state, hrot, initPageState,
      List.nil_append, List.length_cons, List.length_replicate]
    omega

/-- Witness for the amended claim C1 at k = 4 with attempt limit 8. -/
theorem claim_C1_amended_witness :
    (process_page_run 8 (initPageState 4000)
        (rotationScenario 4)).finalRotation = some (if 4 = 1 then 0 else 90)
    ∧ (process_page_run 8 (initPageState 4000) (rotationScenario 4)).backendCalls = 4 :=
  claim_C1_amended_rotation 4000 4 8 (by decide) (by decide)

theorem transient_only_run (maxRetries : Nat) :
    ∀ (n : Nat) (st : PageState), st.attempt < maxRetries →
      ∃ st', process_page_run maxRetries st (List.replicate n .transient) = .pending st'
        ∧ st'.attempt = st.attempt
        ∧ st'.exponential_backoffs = st.exponential_backoffs + n
        ∧ st'.sleep_delays = st.sleep_delays ++
            (List.range n).map (fun i => 10 * 2 ^ (st.exponential_backoffs + i)) := by
  intro n
  induction n with
  | zero =>
    intro st h
    exact ⟨st, by simp [process_page_run, h], rfl, rfl, by simp⟩
  | succ n ih =>
    intro st h
    rw [List.replicate_succ]
    simp only [process_page_run, if_pos h]
    obtain ⟨st', heq, ha, hb, hd⟩ := ih
      { st with
        rotations_used := st.rotations_used ++ [st.local_image_rotation],
        exponential_backoffs := st.exponential_backoffs + 1,
        sleep_delays := st.sleep_delays ++ [10 * 2 ^ st.exponential_backoffs] }
      (by simpa using h)
    refine ⟨st', heq, by simpa using ha, by simp at hb ⊢; omega, ?_⟩
    rw [hd]
    simp only [List.append_assoc]
    congr 1
    rw [List.range_succ_eq_map, List.map_cons, List.map_map]
    have hfun : ((fun i => 10 * 2 ^ (st.exponential_backoffs + i)) ∘ Nat.succ)
        = (fun i => 10 * 2 ^ (st.exponential_backoffs + 1 + i)) := by
      funext i
      simp only [Function.comp, Nat.succ_eq_add_one]
      have hadd : st.exponential_backoffs + (i + 1) = st.exponential_backoffs + 1 + i := by
        omega
      rw [hadd]
    rw [hfun]
    rfl

/-- Claim C10, confirmed: a transient failure (`ConnectionError`, `OSError`,
`asyncio.TimeoutError`) performs the exponential backoff sleep but does not
increment the attempt counter, so the `MAX_RETRIES` bound is consumed only by
non-transient failures: for every n, a run meeting n consecutive transient
failures is still inside the retry loop (`pending` — neither a success nor the
terminal fallback), its attempt counter still 0, having slept the n exponential
delays `10 * 2^i`. -/
theorem claim_C10_transient_no_attempt (anchorLen maxRetries n : Nat)
    (h : 0 < maxRetries) :
    ∃ st', process_page_run maxRetries (initPageState anchorLen)
        (List.replicate n .transient) = .pending st'
      ∧ st'.attempt = 0
      ∧ st'.exponential_backoffs = n
      ∧ st'.sleep_delays = (List.range n).map (fun i => 10 * 2 ^ i) := by
  obtain ⟨st', heq, ha, hb, hd⟩ := transient_only_run maxRetries n
    (initPageState anchorLen) (by simpa [initPageState] using h)
  refine ⟨st', heq, ?_, ?_, ?_⟩
  · simpa [initPageState] using ha
  · simpa [initPageState] using hb
  · rw [hd]
    simp [initPageState]

/-- Witness for claim C10: three transient failures under an attempt limit of 8
leave the loop pending with attempt 0 and sleeps 10, 20, 40. -/
theorem claim_C10_witness :
    ∃ st', process_page_run 8 (initPageState 4000)
        (List.replicate 3 .transient) = .pending st'
      ∧ st'.attempt = 0
      ∧ st'.exponential_backoffs = 3
      ∧ st'.sleep_delays = (List.range 3).map (fun i => 10 * 2 ^ i) :=
  claim_C10_transient_no_attempt 4000 8 3 (by decide)

/-! ## Claim theorems: fallback-ratio gate (C5) -/

/-- Claim C5, confirmed: `process_pdf` emits a document only when
`fallback_page_count / total_pages ≤ max_page_error_rate`, and at the exact
boundary with threshold 0.004 = 1/250 and 250 pages, one fallback page (ratio
exactly 0.004) still yields a document while two fallback pages (ratio 0.008)
yield none. -/
theorem claim_C5_fallback_ratio_gate :
    (∀ (rate : ℚ) (path : String) (prs : List PageResult),
        process_pdf_result rate path prs ≠ none →
        ((prs.filter (fun pr => pr.is_fallback)).length : ℚ) / (prs.length : ℚ) ≤ rate)
    ∧ process_pdf_result (1 / 250) "doc" pages250one ≠ none
    ∧ process_pdf_result (1 / 250) "doc" pages250two = none := by
  refine ⟨?_, ?_, ?_⟩
  · intro rate path prs hemit
    by_contra hgt
    apply hemit
    simp only [process_pdf_result]
    rw [if_pos (lt_of_not_le hgt)]
  · have hcount : (pages250one.filter (fun pr => pr.is_fallback)).length = 1 := by decide
    have hlen : pages250one.length = 250 := by decide
    have hcond : ¬(((pages250one.filter (fun pr => pr.is_fallback)).length : ℚ) /
        (pages250one.length : ℚ) > 1 / 250) := by
      rw [hcount, hlen]
      norm_num
    simp only [process_pdf_result]
    rw [if_neg hcond]
    decide
  · have hcount : (pages250two.filter (fun pr => pr.is_fallback)).length = 2 := by decide
    have hlen : pages250two.length = 250 := by decide
    have hcond : ((pages250two.filter (fun pr => pr.is_fallback)).length : ℚ) /
        (pages250two.length : ℚ) > 1 / 250 := by
      rw [hcount, hlen]
      norm_num
    simp only [process_pdf_result]
    rw [if_pos hcond]

/-- Witness for claim C5's universally quantified part at the 250-page,
one-fallback boundary input. -/
theorem claim_C5_witness :
    ((pages250one.filter (fun pr => pr.is_fallback)).length : ℚ) /
      (pages250one.length : ℚ) ≤ 1 / 250 :=
  claim_C5_fallback_ratio_gate.1 (1 / 250) "doc" pages250one
    claim_C5_fallback_ratio_gate.2.1

/-! ## Claim theorems: inference client (C6, C7) -/

/-- Claim C6 as stated is false: `post_completion` hands `_post` to the
client's own recovery manager, built with `max_attempts = 3`, which re-invokes
the operation after a failure.  With a script whose first attempt fails and
second succeeds, one `post_completion` call issues 2 HTTP POSTs, not 1. -/
theorem claim_C6_counterexample :
    post_completion_posts (fun i => decide (1 ≤ i)) = 2 ∧ (2 : Nat) ≠ 1 := by
  exact ⟨by decide, by decide⟩

/-- Claim C6 amended: each `post_completion` call issues between 1 and 3 HTTP
POSTs — each `_post` invocation opens a fresh connection and sends the request
exactly once, but the client's recovery manager re-invokes `_post` up to
`max_attempts = 3` times, stopping at the first success; exactly one POST is
issued precisely when the first attempt succeeds.  (Retry policy therefore also
lives inside the client, in addition to the page processor's own retries.) -/
theorem claim_C6_amended_retry (succeeds : Nat → Bool) :
    1 ≤ post_completion_posts succeeds
    ∧ post_completion_posts succeeds ≤ 3
    ∧ (post_completion_posts succeeds = 1 ↔ succeeds 0 = true) := by
  have e : post_completion_posts succeeds
      = if succeeds 0 then 1 else if succeeds 1 then 2 else 3 := by
    simp only [post_completion_posts, execute_with_retry_calls, executeWithRetryCallsAux]
    by_cases h0 : succeeds 0 = true
    · simp [h0]
    · simp only [Bool.not_eq_true] at h0
      by_cases h1 : succeeds 1 = true
      · simp [h0, h1]
      · simp only [Bool.not_eq_true] at h1
        simp [h0, h1]
  rw [e]
  by_cases h0 : succeeds 0 = true
  · simp [h0]
  · simp only [Bool.not_eq_true] at h0
    by_cases h1 : succeeds 1 = true
    · simp [h0, h1]
    · simp only [Bool.not_eq_true] at h1
      simp [h0, h1]

/-- Witness for the amended claim C6 with an always-succeeding script. -/
theorem claim_C6_amended_witness :
    1 ≤ post_completion_posts (fun _ => true)
    ∧ post_completion_posts (fun _ => true) ≤ 3
    ∧ (post_completion_posts (fun _ => true) = 1 ↔ (fun _ : Nat => true) 0 = true) :=
  claim_C6_amended_retry (fun _ => true)

/-- Claim C7 as stated is false: a well-formed response that lacks a
content-length header makes `_post` raise `NetworkError` ("Missing
content-length header"), not `ValidationError`. -/
theorem claim_C7_counterexample :
    classify_post (.response "HTTP/1.1 200 OK" [("Date", "now")]) = .err .network
    ∧ PostErrorKind.network ≠ PostErrorKind.validation := by
  exact ⟨by decide, by decide⟩

/-- Claim C7 amended: the client's failure classification is — timeout raises a
timeout error and connection failure a network error; an empty status line (no
response at all) raises a network error; a non-empty status line with fewer than
two tokens, or a non-integer status code, raises a validation error; a missing
content-length header raises a network error while a present but non-integer
content-length raises a validation error. -/
theorem claim_C7_amended_taxonomy :
    classify_post .timedOut = .err .timeout
    ∧ classify_post .connectionFailed = .err .network
    ∧ (∀ headers, classify_post (.response "" headers) = .err .network)
    ∧ (∀ sl headers, sl ≠ "" → (statusParts sl).length < 2 →
        classify_post (.response sl headers) = .err .validation)
    ∧ (∀ sl headers, sl ≠ "" → ¬(statusParts sl).length < 2 →
        pyInt? (((statusParts sl).get? 1).getD "") = none →
        classify_post (.response sl headers) = .err .validation)
    ∧ (∀ sl headers code, sl ≠ "" → ¬(statusParts sl).length < 2 →
        pyInt? (((statusParts sl).get? 1).getD "") = some code →
        headerLookup headers "content-length" = none →
        classify_post (.response sl headers) = .err .network)
    ∧ (∀ sl headers code v, sl ≠ "" → ¬(statusParts sl).length < 2 →
        pyInt? (((statusParts sl).get? 1).getD "") = some code →
        headerLookup headers "content-length" = some v →
        pyInt? v = none →
        classify_post (.response sl headers) = .err .validation) := by
  refine ⟨rfl, rfl, ?_, ?_, ?_, ?_, ?_⟩
  · intro headers
    simp [classify_post]
  · intro sl headers h1 h2
    simp only [classify_post]
    rw [if_neg h1, if_pos h2]
  · intro sl headers h1 h2 h3
    simp only [classify_post]
    rw [if_neg h1, if_neg h2, h3]
  · intro sl headers code h1 h2 h3 h4
    simp only [classify_post]
    rw [if_neg h1, if_neg h2, h3]
    simp only []
    rw [h4]
  · intro sl headers code v h1 h2 h3 h4 h5
    simp only [classify_post]
    rw [if_neg h1, if_neg h2, h3]
    simp only []
    rw [h4]
    simp only []
    rw [h5]

/-- Witness for the amended claim C7: a 200 response with no headers is
classified as a network error (missing content-length). -/
theorem claim_C7_amended_witness :
    classify_post (.response "HTTP/1.1 200 OK" []) = .err .network :=
  claim_C7_amended_taxonomy.2.2.2.2.2.1 "HTTP/1.1 200 OK" [] 200
    (by decide) (by decide) (by decide) (by decide)

/-! ## Claim theorems: backoff download (C8) -/

theorem slept_append_identity (b a k : Nat) (slept : List Nat) :
    (slept ++ [b ^ a]) ++ (List.range k).map (fun i => b ^ (a + 1 + i)) =
      slept ++ (List.range (k + 1)).map (fun i => b ^ (a + i)) := by
  rw [List.append_assoc]
  congr 1
  rw [List.range_succ_eq_map, List.map_cons, List.map_map]
  have hfun : ((fun i => b ^ (a + i)) ∘ Nat.succ) = (fun i => b ^ (a + 1 + i)) := by
    funext i
    simp only [Function.comp, Nat.succ_eq_add_one]
    have h1 : a + (i + 1) = a + 1 + i := by omega
    rw [h1]
  rw [hfun]
  rfl

theorem s3BackoffAux_skip {α : Type} (attempts : Nat → S3Attempt α) (b : Nat) :
    ∀ (k a f : Nat) (slept : List Nat), k ≤ f →
      (∀ i, i < k → (attempts (a + i)).retryable) →
      s3BackoffAux attempts b a f slept =
        s3BackoffAux attempts b (a + k) (f - k)
          (slept ++ (List.range k).map (fun i => b ^ (a + i))) := by
  intro k
  induction k with
  | zero =>
    intro a f slept _ _
    simp
  | succ k ih =>
    intro a f slept hkf hretry
    obtain ⟨f', rfl⟩ : ∃ f', f = f' + 1 := ⟨f - 1, by omega⟩
    have h0 : (attempts a).retryable := by
      have h := hretry 0 (by omega)
      simpa using h
    have hretry1 : ∀ i, i < k → (attempts (a + 1 + i)).retryable := by
      intro i hi
      have h := hretry (i + 1) (by omega)
      have e : a + (i + 1) = a + 1 + i := by omega
      rwa [e] at h
    have e1 : a + 1 + k = a + (k + 1) := by omega
    have e2 : f' - k = f' + 1 - (k + 1) := by omega
    cases hA : attempts a with
    | ok d =>
      rw [hA] at h0
      exact absurd h0 (by simp [S3Attempt.retryable])
    | clientError code =>
      rw [hA] at h0
      have hstep : s3BackoffAux attempts b a (f' + 1) slept =
          s3BackoffAux attempts b (a + 1) f' (slept ++ [b ^ a]) := by
        simp only [s3BackoffAux, hA]
        rw [if_neg h0]
      rw [hstep, ih (a + 1) f' (slept ++ [b ^ a]) (by omega) hretry1,
        slept_append_identity, e1, e2]
    | otherError =>
      have hstep : s3BackoffAux attempts b a (f' + 1) slept =
          s3BackoffAux attempts b (a + 1) f' (slept ++ [b ^ a]) := by
        simp only [s3BackoffAux, hA]
      rw [hstep, ih (a + 1) f' (slept ++ [b ^ a]) (by omega) hretry1,
        slept_append_identity, e1, e2]

theorem gcsBackoffAux_skip {α : Type} (attempts : Nat → GcsAttempt α) (b : Nat) :
    ∀ (k a f : Nat) (slept : List Nat), k ≤ f →
      (∀ i, i < k → (attempts (a + i)).retryable) →
      gcsBackoffAux attempts b a f slept =
        gcsBackoffAux attempts b (a + k) (f - k)
          (slept ++ (List.range k).map (fun i => b ^ (a + i))) := by
  intro k
  induction k with
  | zero =>
    intro a f slept _ _
    simp
  | succ k ih =>
    intro a f slept hkf hretry
    obtain ⟨f', rfl⟩ : ∃ f', f = f' + 1 := ⟨f - 1, by omega⟩
    have h0 : (attempts a).retryable := by
      have h := hretry 0 (by omega)
      simpa using h
    have hretry1 : ∀ i, i < k → (attempts (a + 1 + i)).retryable := by
      intro i hi
      have h := hretry (i + 1) (by omega)
      have e : a + (i + 1) = a + 1 + i := by omega
      rwa [e] at h
    have e1 : a + 1 + k = a + (k + 1) := by omega
    have e2 : f' - k = f' + 1 - (k + 1) := by omega
    cases hA : attempts a with
    | ok d =>
      rw [hA] at h0
      exact absurd h0 (by simp [GcsAttempt.retryable])
    | notFound =>
      rw [hA] at h0
      exact absurd h0 (by simp [GcsAttempt.retryable])
    | permissionDenied =>
      rw [hA] at h0
      exact absurd h0 (by simp [GcsAttempt.retryable])
    | forbidden =>
      rw [hA] at h0
      exact absurd h0 (by simp [GcsAttempt.retryable])
    | otherError =>
      have hstep : gcsBackoffAux attempts b a (f' + 1) slept =
          gcsBackoffAux attempts b (a + 1) f' (slept ++ [b ^ a]) := by
        simp only [gcsBackoffAux, hA]
      rw [hstep, ih (a + 1) f' (slept ++ [b ^ a]) (by omega) hretry1,
        slept_append_identity, e1, e2]

/-- Claim C8, confirmed: the backoff download wrappers re-raise
NotFound/PermissionDenied outcomes immediately with no sleep and no retry —
after k earlier retryable failures exactly the k earlier exponential delays
`b^0, b^1, ..., b^(k-1)` were slept, none for the fatal outcome — and retry
every other failure with exponentially growing delay until the attempt budget
is exhausted, then raise a terminal error.  The five conjuncts cover
`get_s3_bytes_with_backoff` (`AccessDenied`/`NoSuchKey` short-circuit, and
budget exhaustion) and `get_gcs_bytes_with_backoff` (`NotFound` short-circuit,
`PermissionError`/`Forbidden` short-circuit, and budget exhaustion). -/
theorem claim_C8_backoff_shortcircuit :
    (∀ (α : Type) (attempts : Nat → S3Attempt α) (max_retries b k : Nat) (code : String),
        k < max_retries →
        (∀ i, i < k → (attempts i).retryable) →
        attempts k = .clientError code →
        (code = "AccessDenied" ∨ code = "NoSuchKey") →
        get_s3_bytes_with_backoff_run attempts max_retries b =
          .raisedClientError code ((List.range k).map (fun i => b ^ i)))
    ∧ (∀ (α : Type) (attempts : Nat → S3Attempt α) (max_retries b : Nat),
        (∀ i, i < max_retries → (attempts i).retryable) →
        get_s3_bytes_with_backoff_run attempts max_retries b =
          .raisedTerminal ((List.range max_retries).map (fun i => b ^ i)))
    ∧ (∀ (α : Type) (attempts : Nat → GcsAttempt α) (max_retries b k : Nat),
        k < max_retries →
        (∀ i, i < k → (attempts i).retryable) →
        attempts k = .notFound →
        get_gcs_bytes_with_backoff_run attempts max_retries b =
          .raisedNotFound ((List.range k).map (fun i => b ^ i)))
    ∧ (∀ (α : Type) (attempts : Nat → GcsAttempt α) (max_retries b k : Nat),
        k < max_retries →
        (∀ i, i < k → (attempts i).retryable) →
        (attempts k = .permissionDenied ∨ attempts k = .forbidden) →
        get_gcs_bytes_with_backoff_run attempts max_retries b =
          .raisedPermission ((List.range k).map (fun i => b ^ i)))
    ∧ (∀ (α : Type) (attempts : Nat → GcsAttempt α) (max_retries b : Nat),
        (∀ i, i < max_retries → (attempts i).retryable) →
        get_gcs_bytes_with_backoff_run attempts max_retries b =
          .raisedTerminal ((List.range max_retries).map (fun i => b ^ i))) := by
  refine ⟨?_, ?_, ?_, ?_, ?_⟩
  · intro α attempts max_retries b k code hk hretry hAk hcode
    have hr0 : ∀ i, i < k → (attempts (0 + i)).retryable := by
      intro i hi
      rw [Nat.zero_add]
      exact hretry i hi
    rw [get_s3_bytes_with_backoff_run,
      s3BackoffAux_skip attempts b k 0 max_retries [] (le_of_lt hk) hr0]
    simp only [Nat.zero_add, List.nil_append]
    obtain ⟨f', hf⟩ : ∃ f', max_retries - k = f' + 1 := ⟨max_retries - k - 1, by omega⟩
    rw [hf]
    simp only [s3BackoffAux, hAk]
    rw [if_pos hcode]
  · intro α attempts max_retries b hretry
    have hr0 : ∀ i, i < max_retries → (attempts (0 + i)).retryable := by
      intro i hi
      rw [Nat.zero_add]
      exact hretry i hi
    rw [get_s3_bytes_with_backoff_run,
      s3BackoffAux_skip attempts b max_retries 0 max_retries [] (le_refl _) hr0]
    simp only [Nat.zero_add, List.nil_append, Nat.sub_self]
    rfl
  · intro α attempts max_retries b k hk hretry hAk
    have hr0 : ∀ i, i < k → (attempts (0 + i)).retryable := by
      intro i hi
      rw [Nat.zero_add]
      exact hretry i hi
    rw [get_gcs_bytes_with_backoff_run,
      gcsBackoffAux_skip attempts b k 0 max_retries [] (le_of_lt hk) hr0]
    simp only [Nat.zero_add, List.nil_append]
    obtain ⟨f', hf⟩ : ∃ f', max_retries - k = f' + 1 := ⟨max_retries - k - 1, by omega⟩
    rw [hf]
    simp only [gcsBackoffAux, hAk]
  · intro α attempts max_retries b k hk hretry hAk
    have hr0 : ∀ i, i < k → (attempts (0 + i)).retryable := by
      intro i hi
      rw [Nat.zero_add]
      exact hretry i hi
    rw [get_gcs_bytes_with_backoff_run,
      gcsBackoffAux_skip attempts b k 0 max_retries [] (le_of_lt hk) hr0]
    simp only [Nat.zero_add, List.nil_append]
    obtain ⟨f', hf⟩ : ∃ f', max_retries - k = f' + 1 := ⟨max_retries - k - 1, by omega⟩
    rw [hf]
    cases hAk with
    | inl h => simp only [gcsBackoffAux, h]
    | inr h => simp only [gcsBackoffAux, h]
  · intro α attempts max_retries b hretry
    have hr0 : ∀ i, i < max_retries → (attempts (0 + i)).retryable := by
      intro i hi
      rw [Nat.zero_add]
      exact hretry i hi
    rw [get_gcs_bytes_with_backoff_run,
      gcsBackoffAux_skip attempts b max_retries 0 max_retries [] (le_refl _) hr0]
    simp only [Nat.zero_add, List.nil_append, Nat.sub_self]
    rfl

/-- Witness for claim C8: an S3 script failing once retryably and then raising
`NoSuchKey` short-circuits after exactly one sleep of `2^0 = 1` second. -/
theorem claim_C8_witness :
    get_s3_bytes_with_backoff_run s3WitnessScript 8 2 =
      .raisedClientError "NoSuchKey" ((List.range 1).map (fun i => 2 ^ i)) :=
  claim_C8_backoff_shortcircuit.1 Nat s3WitnessScript 8 2 1 "NoSuchKey"
    (by decide)
    (by
      intro i hi
      have h : i = 0 := by omega
      subst h
      simp [s3WitnessScript, S3Attempt.retryable])
    (by decide) (by decide)

/-! ## Claim theorems: worker manager (C9) -/

theorem keptDocs_length : ∀ (results : List MemberOutcome),
    (keptDocs results).length =
      (results.filter
        (fun r => match r with | .produced _ => true | _ => false)).length := by
  intro results
  induction results with
  | nil => rfl
  | cons r rest ih =>
    cases r <;>
      simp only [keptDocs, List.foldr_cons, List.filter_cons] at ih ⊢ <;>
      simp [ih]

theorem collect_dolma_docs_no_failure (results : List MemberOutcome)
    (h : ∀ r ∈ results, r ≠ MemberOutcome.failed) :
    collect_dolma_docs results = keptDocs results := by
  have hany : results.any (fun r => match r with | .failed => true | _ => false)
      = false := by
    rw [List.any_eq_false]
    intro r hr
    cases r with
    | produced d => simp
    | noDocument => simp
    | failed => exact absurd rfl (h .failed hr)
  simp [collect_dolma_docs, hany]

theorem collect_dolma_docs_failure (results : List MemberOutcome)
    (h : MemberOutcome.failed ∈ results) :
    collect_dolma_docs results = [] := by
  have hany : results.any (fun r => match r with | .failed => true | _ => false)
      = true := by
    rw [List.any_eq_true]
    exact ⟨.failed, h, rfl⟩
  simp [collect_dolma_docs, hany]

/-- Claim C9, confirmed: a work item whose members yield one document and one
none results in exactly one JSONL line written for the item's hash, and the
item is still marked done.  In general, when no member task raised, the number
of lines written equals the number of members that produced a document (members
yielding none are silently omitted) and `mark_done` is reached; when some
member task raised, the `TaskGroup`'s `ExceptionGroup` skips the collection
loop, so zero lines are written, and the item is still marked done (the
exception is caught inside `_process_pdfs_in_work_item`). -/
theorem claim_C9_partial_work_item (d : DolmaDoc) :
    run_work_item [.produced d, .noDocument] = ⟨1, true⟩
    ∧ run_work_item [.noDocument, .produced d] = ⟨1, true⟩
    ∧ (∀ results : List MemberOutcome,
        (∀ r ∈ results, r ≠ MemberOutcome.failed) →
        (run_work_item results).lines_written =
          (results.filter
            (fun r => match r with | .produced _ => true | _ => false)).length
        ∧ (run_work_item results).marked_done = true)
    ∧ (∀ results : List MemberOutcome,
        MemberOutcome.failed ∈ results →
        (run_work_item results).lines_written = 0
        ∧ (run_work_item results).marked_done = true) := by
  refine ⟨rfl, rfl, ?_, ?_⟩
  · intro results h
    refine ⟨?_, rfl⟩
    simp only [run_work_item, dolma_jsonl_line_count]
    rw [collect_dolma_docs_no_failure results h, keptDocs_length]
  · intro results h
    refine ⟨?_, rfl⟩
    simp only [run_work_item, dolma_jsonl_line_count]
    rw [collect_dolma_docs_failure results h]
    rfl

/-- Witness for claim C9 at a concrete document. -/
theorem claim_C9_witness :
    run_work_item [.produced sampleDoc, .noDocument] = ⟨1, true⟩ :=
  (claim_C9_partial_work_item sampleDoc).1

end OlmOCR
